import Mathlib

/-!
Verification development for `file_parser.py`: the chunk extraction and
ordering model of the five format extractors (PDF, DOCX, PPTX, CSV, TSV).

Each extractor is embedded as a pure function over the content units its
decoder collaborator exposes (pages, paragraphs, slides/shapes, dataframes).
Machine-level decoding is abstracted exactly at the collaborator interface the
source calls into (PyPDF2 pages, tabula table detection, python-docx
paragraphs/tables/shapes, python-pptx slides, pandas dataframes).
-/

namespace FileParser

/-- A chunk as appended by `PDFParser.parse_file` and `PPTParser.parse_file`:
every appended dict carries a `"type"` tag, its payload, and an `"order"` key
equal to `len(self.chunks)` at append time.  Image payloads are opaque handles
(the decoder's image object), embedded as `Nat` identifiers. -/
inductive Chunk where
  | paragraph (text : String) (order : Nat)
  | table (headers : List String) (data : List (List String)) (order : Nat)
  | image (image : Nat) (order : Nat)
deriving DecidableEq

/-- The value of a chunk's `"order"` key (`x["order"]`). -/
def Chunk.order : Chunk → Nat
  | .paragraph _ o => o
  | .table _ _ o => o
  | .image _ o => o

/-- Whether a chunk's `"type"` tag is `"paragraph"`. -/
def Chunk.isParagraph : Chunk → Bool
  | .paragraph _ _ => true
  | _ => false

/-- Number of paragraph chunks in a chunk list. -/
def paragraphCount (chunks : List Chunk) : Nat :=
  (chunks.filter Chunk.isParagraph).length

/-- The sort key comparison used by `sorted(self.chunks, key=lambda x: x["order"])`. -/
def chunkLE (a b : Chunk) : Bool :=
  a.order ≤ b.order

/-- `sorted(self.chunks, key=lambda x: x["order"])`: Python's `sorted` is a
stable sort by the key, embedded as the stable merge sort by the `"order"`
key (any two stable sorts by the same key agree pointwise). -/
def sequencer (chunks : List Chunk) : List Chunk :=
  chunks.mergeSort chunkLE

/-- Python's `text.split("\x7bsep\x7d")` for the fixed separator `"\n\n"`:
scan left to right, break at each non-overlapping occurrence of two
consecutive newlines, keep empty pieces (so the empty string splits to
`[""]`, exactly as in Python). -/
def splitNN : List Char → List Char → List String
  | [], acc => [String.mk acc.reverse]
  | '\n' :: '\n' :: rest, acc => String.mk acc.reverse :: splitNN rest []
  | c :: rest, acc => splitNN rest (c :: acc)

/-- `text.split("\n\n")` on a string. -/
def splitDoubleNewline (text : String) : List String :=
  splitNN text.data []

/-- A decoded PDF page as the PDF decoder collaborator exposes it:
`page.extract_text()` and the page's embedded images (opaque handles). -/
structure Page where
  text : String
  images : List Nat
deriving DecidableEq

/-- One detected table grid as the `tabula` collaborator returns it:
`table.columns` and `table.values.tolist()`. -/
structure PTable where
  headers : List String
  data : List (List String)
deriving DecidableEq

/-- The per-page loop body of `PDFParser.parse_file`: split the page text on
blank lines into paragraph chunks, run table detection on the same page text
and append one table chunk per detected table, then append one image chunk per
embedded image.  Every chunk's `"order"` is `len(self.chunks)` at append time.
The `tabula.read_pdf` call sits in no `try` block, so a table-detection
failure propagates as an exception (`Except.error`). -/
def pdfPage (tabula : String → Except Unit (List PTable))
    (chunks : List Chunk) (page : Page) : Except Unit (List Chunk) :=
  let paragraphs := splitDoubleNewline page.text
  let chunks := paragraphs.foldl
    (fun cs p => cs ++ [Chunk.paragraph p cs.length]) chunks
  match tabula page.text with
  | .error e => .error e
  | .ok tables =>
    let chunks := tables.foldl
      (fun cs t => cs ++ [Chunk.table t.headers t.data cs.length]) chunks
    let chunks := page.images.foldl
      (fun cs i => cs ++ [Chunk.image i cs.length]) chunks
    .ok chunks

/-- `PDFParser.parse_file`: traverse all pages accumulating chunks, then
arrange the accumulated chunks with the sequencer.  An exception raised by
the table-detection step of any page aborts the whole traversal. -/
def PDFParser.parse_file (tabula : String → Except Unit (List PTable))
    (pages : List Page) : Except Unit (List Chunk) :=
  match pages.foldlM (pdfPage tabula) [] with
  | .error e => .error e
  | .ok chunks => .ok (sequencer chunks)

/-- A paragraph style as python-docx exposes it (`para.style.name`). -/
structure DocxStyle where
  name : String
deriving DecidableEq

/-- A DOCX paragraph as the decoder exposes it: `para.text` and `para.style`. -/
structure DocxParagraph where
  text : String
  style : DocxStyle
deriving DecidableEq

/-- A value appended to `DocxParser.parse_file`'s chunk list.  The four
emission forms in the source have four different shapes: a dict
`\x7b'type': 'list', 'data': para.text\x7d` for List-styled paragraphs, the bare
string `para.text` for all other paragraphs, the bare nested list of cell
texts for a table, and a dict `\x7b'type': 'image', 'data': blob\x7d` for an
inline image. -/
inductive DocxChunk where
  | listDict (data : String)
  | bareText (text : String)
  | tableData (data : List (List String))
  | imageDict (data : Nat)
deriving DecidableEq

/-- The dict keys of an emitted DOCX chunk; `none` when the emitted value is
not a dict at all (a bare string or a bare nested list has no keys). -/
def DocxChunk.dictKeys : DocxChunk → Option (List String)
  | .listDict _ => some ["type", "data"]
  | .bareText _ => none
  | .tableData _ => none
  | .imageDict _ => some ["type", "data"]

/-- Whether an emitted DOCX chunk carries an `"order"` key. -/
def DocxChunk.hasOrderKey (c : DocxChunk) : Bool :=
  match c.dictKeys with
  | some keys => keys.contains "order"
  | none => false

/-- The `"type"` tag of an emitted DOCX chunk; `none` when untagged. -/
def DocxChunk.typeTag : DocxChunk → Option String
  | .listDict _ => some "list"
  | .bareText _ => none
  | .tableData _ => none
  | .imageDict _ => some "image"

/-- Python's `para.style.name.startswith('List')`: a string-prefix test,
embedded on the underlying character lists. -/
def styleStartsWith (s pre : String) : Bool :=
  pre.data.isPrefixOf s.data

/-- The per-paragraph branch of `DocxParser.parse_file`: a paragraph whose
style name starts with `'List'` is appended as `\x7b'type': 'list',
'data': para.text\x7d`; any other paragraph is appended as the bare string
`para.text`. -/
def docxParaChunk (para : DocxParagraph) : DocxChunk :=
  if styleStartsWith para.style.name "List" then .listDict para.text
  else .bareText para.text

/-- `DocxParser.parse_file`: three separate passes — all paragraphs, then all
tables (as their full cell-text grids), then all inline images.  No `"order"`
key is attached anywhere and no sorting step runs. -/
def DocxParser.parse_file (paragraphs : List DocxParagraph)
    (tables : List (List (List String))) (images : List Nat) : List DocxChunk :=
  let chunks := paragraphs.foldl (fun cs para => cs ++ [docxParaChunk para]) []
  let chunks := tables.foldl (fun cs t => cs ++ [DocxChunk.tableData t]) chunks
  images.foldl (fun cs i => cs ++ [DocxChunk.imageDict i]) chunks

/-- A PPTX text frame: the texts of its paragraphs. -/
structure TextFrame where
  paragraphs : List String
deriving DecidableEq

/-- A PPTX shape as python-pptx exposes it: `has_text_frame`, `text_frame`,
the numeric `shape_type` code, and (when the shape is of the matching type)
its table grid of cell texts (`table.rows`, each row its cells' texts) or its
image handle. -/
structure Shape where
  has_text_frame : Bool
  text_frame : TextFrame
  shape_type : Nat
  table : List (List String)
  image : Nat
deriving DecidableEq

/-- `text = ''` then `for paragraph in text_frame.paragraphs:
text += paragraph.text + '\n'`. -/
def frameText (tf : TextFrame) : String :=
  tf.paragraphs.foldl (fun text p => text ++ p ++ "\n") ""

/-- The per-shape branch of `PPTParser.parse_file`: first `if
shape.has_text_frame` (paragraph chunk), `elif shape.shape_type == 19`
(table chunk, first row as headers and the remaining rows as data),
`elif shape.shape_type == 13` (image chunk); any other shape appends
nothing.  Every chunk's `"order"` is `len(self.chunks)` at append time.
(`table.rows[0]` requires at least one row; a python-pptx table always has
one, and the empty-grid corner is embedded with `headD`.) -/
def pptShape (chunks : List Chunk) (shape : Shape) : List Chunk :=
  if shape.has_text_frame then
    chunks ++ [Chunk.paragraph (frameText shape.text_frame) chunks.length]
  else if shape.shape_type = 19 then
    chunks ++ [Chunk.table (shape.table.headD []) (shape.table.drop 1) chunks.length]
  else if shape.shape_type = 13 then
    chunks ++ [Chunk.image shape.image chunks.length]
  else chunks

/-- `PPTParser.parse_file`: traverse slides in order and, within each slide,
shapes in order, then arrange the accumulated chunks with the sequencer. -/
def PPTParser.parse_file (slides : List (List Shape)) : List Chunk :=
  sequencer (slides.foldl (fun chunks slide => slide.foldl pptShape chunks) [])

/-- The pandas dataframe `pd.read_csv` produces: ordered named columns, each
with its value sequence. -/
structure DataFrame where
  cols : List (String × List String)
deriving DecidableEq

/-- `self.dataframe.columns`: the ordered column names. -/
def DataFrame.columns (df : DataFrame) : List String :=
  df.cols.map Prod.fst

/-- `self.dataframe[i].tolist()`: the value sequence of the column named `i`. -/
def DataFrame.colValues (df : DataFrame) (i : String) : List String :=
  ((df.cols.find? (fun c => c.1 == i)).map Prod.snd).getD []

/-- A value stored in the CSV/TSV result dict `self.chunks`: a column's value
list, the whole dataframe, or the header list (`self.dataframe.columns`). -/
inductive TVal where
  | col (values : List String)
  | df (d : DataFrame)
  | hdrs (headers : List String)
deriving DecidableEq

/-- Python dict assignment `d[k] = v`: overwrite in place when the key is
already present, otherwise append the new entry at the end. -/
def dictInsert : List (String × TVal) → String → TVal → List (String × TVal)
  | [], k, v => [(k, v)]
  | (k1, v1) :: rest, k, v =>
    if k1 = k then (k1, v) :: rest else (k1, v1) :: dictInsert rest k v

/-- Python dict lookup `d[k]` (as an `Option`: `none` when the key is absent). -/
def dictGet : List (String × TVal) → String → Option TVal
  | [], _ => none
  | (k1, v1) :: rest, k => if k1 = k then some v1 else dictGet rest k

/-- The shared column-materialization line
`self.chunks[i] = self.dataframe[i].tolist()`. -/
def colStep (df : DataFrame) (chunks : List (String × TVal)) (i : String) :
    List (String × TVal) :=
  dictInsert chunks i (TVal.col (df.colValues i))

/-- `CSVParser.parse_file`: one dict entry per column, then the reserved
entries `self.chunks["dataframe"]` and `self.chunks["headers"]`, written after
the loop. -/
def CSVParser.parse_file (df : DataFrame) : List (String × TVal) :=
  let chunks := df.columns.foldl (colStep df) []
  let chunks := dictInsert chunks "dataframe" (TVal.df df)
  dictInsert chunks "headers" (TVal.hdrs df.columns)

/-- The loop body of `TSVParser.parse_file`: unlike the CSV loop, the two
reserved assignments sit inside the loop, so they re-run on every iteration. -/
def tsvStep (df : DataFrame) (chunks : List (String × TVal)) (i : String) :
    List (String × TVal) :=
  dictInsert (dictInsert (colStep df chunks i) "dataframe" (TVal.df df))
    "headers" (TVal.hdrs df.columns)

/-- `TSVParser.parse_file`: the same dict as CSV built with the reserved
assignments repeated inside the loop. -/
def TSVParser.parse_file (df : DataFrame) : List (String × TVal) :=
  df.columns.foldl (tsvStep df) []

/-! ### Sequencer lemmas -/

theorem chunkLE_trans : ∀ (a b c : Chunk), chunkLE a b → chunkLE b c → chunkLE a c := by
  intro a b c hab hbc
  simp only [chunkLE, decide_eq_true_eq] at *
  omega

theorem chunkLE_total : ∀ (a b : Chunk), chunkLE a b || chunkLE b a := by
  intro a b
  simp only [chunkLE, Bool.or_eq_true, decide_eq_true_eq]
  omega

theorem sequencer_perm (l : List Chunk) : (sequencer l).Perm l :=
  List.mergeSort_perm l chunkLE

theorem sequencer_pairwise (l : List Chunk) :
    (sequencer l).Pairwise (fun a b => a.order ≤ b.order) := by
  have h := List.sorted_mergeSort chunkLE_trans chunkLE_total l
  exact h.imp (fun hab => by simpa [chunkLE] using hab)

theorem sequencer_eq_of_sorted (l : List Chunk)
    (h : l.Pairwise (fun a b => a.order ≤ b.order)) : sequencer l = l :=
  List.mergeSort_of_sorted (h.imp (fun hab => by simpa [chunkLE] using hab))

theorem sequencer_filter_order (l : List Chunk) (k : Nat) :
    (sequencer l).filter (fun c => c.order == k) = l.filter (fun c => c.order == k) := by
  have hsub : List.Sublist (l.filter (fun c => c.order == k)) (sequencer l) := by
    apply List.sublist_mergeSort chunkLE_trans chunkLE_total
    · apply List.pairwise_of_forall_mem_list
      intro a ha b hb
      have ha2 := (List.mem_filter.mp ha).2
      have hb2 := (List.mem_filter.mp hb).2
      simp only [beq_iff_eq] at ha2 hb2
      simp [chunkLE, ha2, hb2]
    · exact List.filter_sublist l
  have hperm : ((sequencer l).filter (fun c => c.order == k)).Perm
      (l.filter (fun c => c.order == k)) :=
    (sequencer_perm l).filter _
  have hsub2 : List.Sublist (l.filter (fun c => c.order == k))
      ((sequencer l).filter (fun c => c.order == k)) := by
    have := hsub.filter (fun c => c.order == k)
    rwa [List.filter_filter, (by funext c; simp : (fun c : Chunk =>
      (c.order == k) && (c.order == k)) = fun c => c.order == k)] at this
  exact (hsub2.eq_of_length hperm.length_eq.symm).symm

/-! ### The order-assignment invariant: accumulated chunks carry the orders
`0, 1, ..., n-1` in traversal order, because each append sets `"order"` to
`len(self.chunks)`. -/

def ordersRange (chunks : List Chunk) : Prop :=
  chunks.map Chunk.order = List.range chunks.length

theorem ordersRange_nil : ordersRange [] := rfl

theorem ordersRange_append (cs : List Chunk) (c : Chunk) (hc : c.order = cs.length)
    (h : ordersRange cs) : ordersRange (cs ++ [c]) := by
  unfold ordersRange at *
  simp [List.range_succ, h, hc]

theorem ordersRange_foldl {β : Type} (f : β → Nat → Chunk)
    (hf : ∀ x n, (f x n).order = n) (xs : List β) (cs : List Chunk)
    (h : ordersRange cs) :
    ordersRange (xs.foldl (fun cs x => cs ++ [f x cs.length]) cs) := by
  induction xs generalizing cs with
  | nil => exact h
  | cons x xs ih => exact ih _ (ordersRange_append _ _ (hf x _) h)

theorem ordersRange_pairwise_lt (cs : List Chunk) (h : ordersRange cs) :
    cs.Pairwise (fun a b => a.order < b.order) := by
  have hr := List.pairwise_lt_range cs.length
  rw [← h] at hr
  exact (List.pairwise_map).mp hr

theorem sequencer_of_ordersRange (cs : List Chunk) (h : ordersRange cs) :
    sequencer cs = cs :=
  sequencer_eq_of_sorted cs
    ((ordersRange_pairwise_lt cs h).imp (fun hab => Nat.le_of_lt hab))

theorem pdfPage_ordersRange (tabula : String → Except Unit (List PTable))
    (cs : List Chunk) (page : Page) (cs2 : List Chunk)
    (hok : pdfPage tabula cs page = .ok cs2) (h : ordersRange cs) :
    ordersRange cs2 := by
  simp only [pdfPage] at hok
  cases htab : tabula page.text with
  | error e => rw [htab] at hok; exact absurd hok (by simp)
  | ok tables =>
    rw [htab] at hok
    simp only [Except.ok.injEq] at hok
    subst hok
    apply ordersRange_foldl (fun (i : Nat) n => Chunk.image i n) (fun _ _ => rfl)
    apply ordersRange_foldl (fun (t : PTable) n => Chunk.table t.headers t.data n)
      (fun _ _ => rfl)
    exact ordersRange_foldl (fun (p : String) n => Chunk.paragraph p n)
      (fun _ _ => rfl) _ _ h

theorem pdfFold_ordersRange (tabula : String → Except Unit (List PTable))
    (pages : List Page) (cs cs2 : List Chunk)
    (hok : pages.foldlM (pdfPage tabula) cs = .ok cs2) (h : ordersRange cs) :
    ordersRange cs2 := by
  induction pages generalizing cs with
  | nil =>
    simp only [List.foldlM_nil] at hok
    cases hok
    exact h
  | cons page rest ih =>
    rw [List.foldlM_cons] at hok
    cases hp : pdfPage tabula cs page with
    | error e => rw [hp] at hok; exact Except.noConfusion hok
    | ok cs1 =>
      rw [hp] at hok
      exact ih cs1 hok (pdfPage_ordersRange tabula cs page cs1 hp h)

theorem pptShape_ordersRange (cs : List Chunk) (s : Shape) (h : ordersRange cs) :
    ordersRange (pptShape cs s) := by
  unfold pptShape
  split
  · exact ordersRange_append _ _ rfl h
  · split
    · exact ordersRange_append _ _ rfl h
    · split
      · exact ordersRange_append _ _ rfl h
      · exact h

theorem pptFold_ordersRange (slides : List (List Shape)) (cs : List Chunk)
    (h : ordersRange cs) :
    ordersRange (slides.foldl (fun chunks slide => slide.foldl pptShape chunks) cs) := by
  induction slides generalizing cs with
  | nil => exact h
  | cons slide rest ih =>
    rw [List.foldl_cons]
    apply ih
    clear ih
    induction slide generalizing cs with
    | nil => exact h
    | cons s ss ihs => exact ihs _ (pptShape_ordersRange cs s h)

/-! ### Dict lemmas for the CSV/TSV result -/

theorem dictGet_dictInsert (m : List (String × TVal)) (k : String) (v : TVal) :
    dictGet (dictInsert m k v) k = some v := by
  induction m with
  | nil => simp [dictInsert, dictGet]
  | cons e rest ih =>
    obtain ⟨k1, v1⟩ := e
    by_cases h : k1 = k <;> simp [dictInsert, dictGet, h, ih]

theorem dictGet_dictInsert_ne (m : List (String × TVal)) (k k2 : String) (v : TVal)
    (h : k ≠ k2) : dictGet (dictInsert m k v) k2 = dictGet m k2 := by
  induction m with
  | nil => simp [dictInsert, dictGet, h]
  | cons e rest ih =>
    obtain ⟨k1, v1⟩ := e
    by_cases h1 : k1 = k
    · subst h1
      simp [dictInsert, dictGet, h]
    · simp [dictInsert, dictGet, h1, ih]

theorem colStep_get (df : DataFrame) (m : List (String × TVal)) (i k : String) :
    dictGet (colStep df m i) k =
      if k = i then some (TVal.col (df.colValues i)) else dictGet m k := by
  unfold colStep
  by_cases h : k = i
  · subst h; simp [dictGet_dictInsert]
  · simp [h, dictGet_dictInsert_ne _ _ _ _ (fun he => h he.symm)]

theorem csvFold_get (df : DataFrame) (cols : List String)
    (m : List (String × TVal)) (k : String) :
    dictGet (cols.foldl (colStep df) m) k =
      if k ∈ cols then some (TVal.col (df.colValues k)) else dictGet m k := by
  induction cols generalizing m with
  | nil => simp
  | cons c cs ih =>
    rw [List.foldl_cons, ih]
    by_cases hk : k ∈ cs
    · simp [hk]
    · by_cases hck : k = c
      · subst hck
        simp [hk, colStep_get]
      · simp [hk, hck, colStep_get]

theorem tsvStep_get (df : DataFrame) (m : List (String × TVal)) (i k : String) :
    dictGet (tsvStep df m i) k =
      if k = "headers" then some (TVal.hdrs df.columns)
      else if k = "dataframe" then some (TVal.df df)
      else if k = i then some (TVal.col (df.colValues i))
      else dictGet m k := by
  unfold tsvStep
  by_cases h1 : k = "headers"
  · subst h1; simp [dictGet_dictInsert]
  · rw [dictGet_dictInsert_ne _ _ _ _ (fun he => h1 he.symm)]
    by_cases h2 : k = "dataframe"
    · subst h2; simp [dictGet_dictInsert, h1]
    · rw [dictGet_dictInsert_ne _ _ _ _ (fun he => h2 he.symm)]
      simp [h1, h2, colStep_get]

theorem tsvFold_get (df : DataFrame) (cols : List String)
    (m : List (String × TVal)) (k : String) (hne : cols ≠ []) :
    dictGet (cols.foldl (tsvStep df) m) k =
      if k = "headers" then some (TVal.hdrs df.columns)
      else if k = "dataframe" then some (TVal.df df)
      else if k ∈ cols then some (TVal.col (df.colValues k))
      else dictGet m k := by
  induction cols generalizing m with
  | nil => exact absurd rfl hne
  | cons c cs ih =>
    rw [List.foldl_cons]
    rcases eq_or_ne cs [] with rfl | hcs
    · rw [List.foldl_nil, tsvStep_get]
      by_cases h1 : k = "headers"
      · simp [h1]
      · by_cases h2 : k = "dataframe"
        · simp [h1, h2]
        · by_cases h3 : k = c <;> simp [h1, h2, h3]
    · rw [ih _ hcs]
      by_cases h1 : k = "headers"
      · simp [h1]
      · by_cases h2 : k = "dataframe"
        · simp [h1, h2]
        · by_cases hk : k ∈ cs
          · simp [h1, h2, hk, List.mem_cons]
          · rcases eq_or_ne k c with rfl | h3
            · simp [h1, h2, hk, tsvStep_get]
            · simp [h1, h2, h3, hk, tsvStep_get]

theorem csv_parse_get (df : DataFrame) (k : String) :
    dictGet (CSVParser.parse_file df) k =
      if k = "headers" then some (TVal.hdrs df.columns)
      else if k = "dataframe" then some (TVal.df df)
      else if k ∈ df.columns then some (TVal.col (df.colValues k))
      else none := by
  unfold CSVParser.parse_file
  by_cases h1 : k = "headers"
  · subst h1; simp [dictGet_dictInsert]
  · rw [dictGet_dictInsert_ne _ _ _ _ (fun he => h1 he.symm)]
    by_cases h2 : k = "dataframe"
    · subst h2; simp [dictGet_dictInsert, h1]
    · rw [dictGet_dictInsert_ne _ _ _ _ (fun he => h2 he.symm), csvFold_get]
      simp [h1, h2, dictGet]

theorem tsv_parse_get (df : DataFrame) (k : String) (hne : df.columns ≠ []) :
    dictGet (TSVParser.parse_file df) k =
      if k = "headers" then some (TVal.hdrs df.columns)
      else if k = "dataframe" then some (TVal.df df)
      else if k ∈ df.columns then some (TVal.col (df.colValues k))
      else none := by
  unfold TSVParser.parse_file
  rw [tsvFold_get df df.columns [] k hne]
  simp [dictGet]

/-! ### Text-frame and paragraph-count helpers -/

theorem string_foldl_append (l : List String) (acc : String) :
    l.foldl (fun r s => r ++ s) acc = acc ++ String.join l := by
  induction l generalizing acc with
  | nil => simp [String.join]
  | cons x l ih =>
    have hjoin : String.join (x :: l) = x ++ String.join l := by
      show (x :: l).foldl (fun r s => r ++ s) "" = _
      rw [List.foldl_cons, String.empty_append, ih]
    rw [List.foldl_cons, ih, hjoin, String.append_assoc]

theorem string_join_cons (x : String) (l : List String) :
    String.join (x :: l) = x ++ String.join l := by
  show (x :: l).foldl (fun r s => r ++ s) "" = _
  rw [List.foldl_cons, String.empty_append, string_foldl_append]

theorem frameText_foldl (ps : List String) (acc : String) :
    ps.foldl (fun text p => text ++ p ++ "\n") acc
      = acc ++ String.join (ps.map (fun p => p ++ "\n")) := by
  induction ps generalizing acc with
  | nil => simp [String.join]
  | cons p ps ih =>
    rw [List.foldl_cons, ih, List.map_cons, string_join_cons]
    simp [String.append_assoc]

theorem frameText_eq_join (tf : TextFrame) :
    frameText tf = String.join (tf.paragraphs.map (fun p => p ++ "\n")) := by
  unfold frameText
  rw [frameText_foldl, String.empty_append]

theorem paragraphCount_append (cs : List Chunk) (c : Chunk) :
    paragraphCount (cs ++ [c])
      = paragraphCount cs + (if c.isParagraph then 1 else 0) := by
  unfold paragraphCount
  rw [List.filter_append, List.length_append]
  cases hc : c.isParagraph <;> simp [List.filter_cons, hc]

theorem paragraphCount_paragraphs_foldl (ps : List String) (cs : List Chunk) :
    paragraphCount (ps.foldl (fun cs p => cs ++ [Chunk.paragraph p cs.length]) cs)
      = paragraphCount cs + ps.length := by
  induction ps generalizing cs with
  | nil => rfl
  | cons p ps ih =>
    rw [List.foldl_cons, ih, paragraphCount_append]
    simp [Chunk.isParagraph]
    omega

theorem paragraphCount_tables_foldl (tables : List PTable) (cs : List Chunk) :
    paragraphCount
      (tables.foldl (fun cs t => cs ++ [Chunk.table t.headers t.data cs.length]) cs)
      = paragraphCount cs := by
  induction tables generalizing cs with
  | nil => rfl
  | cons t ts ih =>
    rw [List.foldl_cons, ih, paragraphCount_append]
    rfl

theorem paragraphCount_images_foldl (images : List Nat) (cs : List Chunk) :
    paragraphCount (images.foldl (fun cs i => cs ++ [Chunk.image i cs.length]) cs)
      = paragraphCount cs := by
  induction images generalizing cs with
  | nil => rfl
  | cons i is ih =>
    rw [List.foldl_cons, ih, paragraphCount_append]
    rfl

theorem pdfFold_error (tabula : String → Except Unit (List PTable)) :
    ∀ (pages : List Page) (cs : List Chunk),
    (∃ p ∈ pages, tabula p.text = .error ()) →
    pages.foldlM (pdfPage tabula) cs = .error ()
  | [], _, h => absurd h (by simp)
  | page :: rest, cs, h => by
    rw [List.foldlM_cons]
    cases hp : pdfPage tabula cs page with
    | error e => cases e; rfl
    | ok cs1 =>
      obtain ⟨p, hmem, herr⟩ := h
      rcases List.mem_cons.mp hmem with rfl | hmem2
      · exfalso
        simp only [pdfPage] at hp
        rw [herr] at hp
        exact Except.noConfusion hp
      · show rest.foldlM (pdfPage tabula) cs1 = .error ()
        exact pdfFold_error tabula rest cs1 ⟨p, hmem2, herr⟩

/-! ### Claim theorems -/

/-- C1 counterexample: the DOCX extractor emits chunks without any `"order"`
key — a document with one Normal-styled paragraph yields exactly one chunk,
the bare paragraph string, which is not even a dict. -/
theorem docx_chunk_no_order_key :
    DocxParser.parse_file [⟨"hello", ⟨"Normal"⟩⟩] [] [] = [DocxChunk.bareText "hello"]
    ∧ DocxChunk.hasOrderKey (DocxChunk.bareText "hello") = false :=
  ⟨by decide, rfl⟩

/-- C1 (amended): for the PDF and PPTX extractors every emitted chunk carries
an `"order"` key, and after the final sequencing step the order values are
exactly `0, 1, ..., n-1` in output position — so adjacent chunks satisfy
`chunk[i].order < chunk[i+1].order`, orders are unique, and they follow the
source traversal order.  The DOCX extractor is excluded: its chunks carry no
order key at all (see the counterexample). -/
theorem pdf_ppt_order_monotone (tabula : String → Except Unit (List PTable))
    (pages : List Page) (slides : List (List Shape)) (chunks : List Chunk)
    (hok : PDFParser.parse_file tabula pages = .ok chunks) :
    chunks.map Chunk.order = List.range chunks.length
    ∧ chunks.Pairwise (fun a b => a.order < b.order)
    ∧ (PPTParser.parse_file slides).map Chunk.order
        = List.range (PPTParser.parse_file slides).length
    ∧ (PPTParser.parse_file slides).Pairwise (fun a b => a.order < b.order) := by
  have hppt : ordersRange
      (slides.foldl (fun chunks slide => slide.foldl pptShape chunks) []) :=
    pptFold_ordersRange slides [] ordersRange_nil
  have hppt2 : PPTParser.parse_file slides
      = slides.foldl (fun chunks slide => slide.foldl pptShape chunks) [] := by
    unfold PPTParser.parse_file
    exact sequencer_of_ordersRange _ hppt
  have hpdf : ordersRange chunks := by
    unfold PDFParser.parse_file at hok
    cases hfold : pages.foldlM (pdfPage tabula) [] with
    | error e => rw [hfold] at hok; exact absurd hok (by simp)
    | ok cs =>
      rw [hfold] at hok
      simp only [Except.ok.injEq] at hok
      have hcs : ordersRange cs :=
        pdfFold_ordersRange tabula pages [] cs hfold ordersRange_nil
      rw [← hok, sequencer_of_ordersRange cs hcs]
      exact hcs
  refine ⟨hpdf, ordersRange_pairwise_lt _ hpdf, ?_, ?_⟩
  · rw [hppt2]; exact hppt
  · rw [hppt2]; exact ordersRange_pairwise_lt _ hppt

/-- C1 witness: the amended theorem applied to a one-page PDF and a one-shape
presentation. -/
theorem pdf_ppt_order_monotone_witness :
    ([Chunk.paragraph "a" 0]).map Chunk.order
      = List.range ([Chunk.paragraph "a" 0]).length
    ∧ ([Chunk.paragraph "a" 0]).Pairwise (fun a b => a.order < b.order)
    ∧ (PPTParser.parse_file [[⟨true, ⟨["hi"]⟩, 19, [], 0⟩]]).map Chunk.order
        = List.range (PPTParser.parse_file [[⟨true, ⟨["hi"]⟩, 19, [], 0⟩]]).length
    ∧ (PPTParser.parse_file [[⟨true, ⟨["hi"]⟩, 19, [], 0⟩]]).Pairwise
        (fun a b => a.order < b.order) :=
  pdf_ppt_order_monotone (fun _ => Except.ok []) [⟨"a", []⟩]
    [[⟨true, ⟨["hi"]⟩, 19, [], 0⟩]] [Chunk.paragraph "a" 0]
    (by rw [show PDFParser.parse_file (fun _ => Except.ok []) [⟨"a", []⟩]
          = Except.ok (sequencer [Chunk.paragraph "a" 0]) from rfl]
        simp [sequencer])

/-- C2 counterexample: a three-page PDF whose second page's table detection
raises makes the whole extraction return the error — pages 1 and 3 contribute
nothing, contrary to the degrade-not-abort claim. -/
theorem tabula_failure_counterexample :
    PDFParser.parse_file (fun s => if s = "p2" then .error () else .ok [])
      [⟨"p1", []⟩, ⟨"p2", []⟩, ⟨"p3", []⟩] = .error () :=
  rfl

/-- C2 (amended): the `tabula.read_pdf` call is not guarded by any `try`, so a
table-detection failure on any page aborts the whole extraction with the
error; no chunks of any page are returned. -/
theorem tabula_failure_aborts (tabula : String → Except Unit (List PTable))
    (pages : List Page) (h : ∃ p ∈ pages, tabula p.text = .error ()) :
    PDFParser.parse_file tabula pages = .error () := by
  unfold PDFParser.parse_file
  rw [pdfFold_error tabula pages [] h]

/-- C2 witness: the amended theorem applied to a one-page PDF whose table
detection always fails. -/
theorem tabula_failure_aborts_witness :
    PDFParser.parse_file (fun _ => Except.error ()) [⟨"x", []⟩] = .error () :=
  tabula_failure_aborts _ _ ⟨⟨"x", []⟩, by simp, rfl⟩

/-- C3 counterexample: a List-styled DOCX paragraph is tagged `"list"`, not
`"list_item"`, and a Normal-styled paragraph is emitted as a bare string with
no tag at all, not tagged `"paragraph"`. -/
theorem docx_tag_counterexample :
    DocxParser.parse_file [⟨"item", ⟨"List Bullet"⟩⟩, ⟨"plain", ⟨"Normal"⟩⟩] [] []
      = [DocxChunk.listDict "item", DocxChunk.bareText "plain"]
    ∧ DocxChunk.typeTag (DocxChunk.listDict "item") ≠ some "list_item"
    ∧ DocxChunk.typeTag (DocxChunk.bareText "plain") ≠ some "paragraph" :=
  ⟨by decide, by decide, by decide⟩

/-- C3 (amended): a DOCX paragraph whose style name starts with `"List"` is
emitted as a dict tagged `"list"` holding its text; every other paragraph is
emitted as its bare text string carrying no type tag. -/
theorem docx_para_classification (para : DocxParagraph) :
    DocxParser.parse_file [para] [] [] = [docxParaChunk para]
    ∧ (styleStartsWith para.style.name "List" = true →
        docxParaChunk para = DocxChunk.listDict para.text
        ∧ (docxParaChunk para).typeTag = some "list")
    ∧ (styleStartsWith para.style.name "List" = false →
        docxParaChunk para = DocxChunk.bareText para.text
        ∧ (docxParaChunk para).typeTag = none) := by
  refine ⟨rfl, ?_, ?_⟩ <;> intro h <;> simp [docxParaChunk, h, DocxChunk.typeTag]

/-- C3 witness: the amended theorem applied to a `List Bullet` paragraph. -/
theorem docx_para_classification_witness :
    docxParaChunk ⟨"item", ⟨"List Bullet"⟩⟩ = DocxChunk.listDict "item"
    ∧ (docxParaChunk ⟨"item", ⟨"List Bullet"⟩⟩).typeTag = some "list" :=
  (docx_para_classification ⟨"item", ⟨"List Bullet"⟩⟩).2.1 (by decide)

/-- C4 counterexample: a page whose extracted text is empty contributes one
paragraph chunk (Python's `"".split("\n\n")` is `[""]`), not zero. -/
theorem empty_page_counterexample :
    PDFParser.parse_file (fun _ => Except.ok []) [⟨"", []⟩]
      = .ok [Chunk.paragraph "" 0]
    ∧ paragraphCount [Chunk.paragraph "" 0] = 1 := by
  constructor
  · rw [show PDFParser.parse_file (fun _ => Except.ok []) [⟨"", []⟩]
      = Except.ok (sequencer [Chunk.paragraph "" 0]) from rfl]
    simp [sequencer]
  · rfl

/-- C4 (amended): a page whose extracted text is empty contributes exactly one
paragraph chunk, with empty text, and traversal continues (the page call
returns normally rather than aborting). -/
theorem empty_page_one_paragraph (tabula : String → Except Unit (List PTable))
    (cs : List Chunk) (page : Page) (cs2 : List Chunk)
    (htext : page.text = "") (hok : pdfPage tabula cs page = .ok cs2) :
    paragraphCount cs2 = paragraphCount cs + 1 := by
  simp only [pdfPage] at hok
  rw [htext] at hok
  cases htab : tabula "" with
  | error e => rw [htab] at hok; exact absurd hok (by simp)
  | ok tables =>
    rw [htab] at hok
    simp only [Except.ok.injEq] at hok
    subst hok
    rw [show splitDoubleNewline "" = [""] from rfl]
    rw [paragraphCount_images_foldl, paragraphCount_tables_foldl,
      paragraphCount_paragraphs_foldl]
    rfl

/-- C4 witness: the amended theorem applied to an empty page with no tables
and no images. -/
theorem empty_page_one_paragraph_witness :
    paragraphCount [Chunk.paragraph "" 0] = paragraphCount [] + 1 :=
  empty_page_one_paragraph (fun _ => Except.ok []) [] ⟨"", []⟩
    [Chunk.paragraph "" 0] rfl rfl

/-- C5: for the same decoded grid (CSV with comma, TSV with tab), the two
Tabular Results agree on every key — same `"headers"` entry and same value
sequence for every column — even though the TSV loop re-writes the reserved
entries on every iteration. -/
theorem csv_tsv_equivalence (df : DataFrame) (hne : df.columns ≠ []) :
    (∀ k, dictGet (CSVParser.parse_file df) k = dictGet (TSVParser.parse_file df) k)
    ∧ dictGet (CSVParser.parse_file df) "headers" = some (TVal.hdrs df.columns)
    ∧ dictGet (TSVParser.parse_file df) "headers" = some (TVal.hdrs df.columns) := by
  refine ⟨fun k => ?_, ?_, ?_⟩
  · rw [csv_parse_get, tsv_parse_get df k hne]
  · rw [csv_parse_get]; simp
  · rw [tsv_parse_get df _ hne]; simp

/-- C5 witness: the equivalence applied to a concrete two-column grid, read at
column "a". -/
theorem csv_tsv_equivalence_witness :
    dictGet (CSVParser.parse_file ⟨[("a", ["1", "2"]), ("b", ["3", "4"])]⟩) "a"
      = dictGet (TSVParser.parse_file ⟨[("a", ["1", "2"]), ("b", ["3", "4"])]⟩) "a" :=
  (csv_tsv_equivalence ⟨[("a", ["1", "2"]), ("b", ["3", "4"])]⟩ (by decide)).1 "a"

/-- C6: the chunk sequencer is a stable sort ascending by the `"order"` key:
its output is sorted by `order`, is a permutation of its input, and chunks
with equal `order` keep their relative input order (the filter at every order
value is unchanged). -/
theorem sequencer_stable_sort (l : List Chunk) :
    (sequencer l).Pairwise (fun a b => a.order ≤ b.order)
    ∧ (sequencer l).Perm l
    ∧ ∀ k : Nat, (sequencer l).filter (fun c => c.order == k)
        = l.filter (fun c => c.order == k) :=
  ⟨sequencer_pairwise l, sequencer_perm l, fun k => sequencer_filter_order l k⟩

/-- C7: a PPTX shape with a text frame is classified as a paragraph chunk even
when its declared shape type is the table code (19) or the picture code (13):
the text-frame branch is tested first and wins. -/
theorem ppt_text_frame_priority (cs : List Chunk) (s : Shape)
    (htf : s.has_text_frame = true)
    (hty : s.shape_type = 19 ∨ s.shape_type = 13) :
    pptShape cs s = cs ++ [Chunk.paragraph (frameText s.text_frame) cs.length] := by
  unfold pptShape
  simp [htf]

/-- C7 witness: the priority theorem applied to a shape with both a text frame
and the table type code. -/
theorem ppt_text_frame_priority_witness :
    pptShape [] ⟨true, ⟨["t"]⟩, 19, [["h"], ["d"]], 0⟩
      = [Chunk.paragraph (frameText ⟨["t"]⟩) 0] :=
  ppt_text_frame_priority [] ⟨true, ⟨["t"]⟩, 19, [["h"], ["d"]], 0⟩ rfl (Or.inl rfl)

/-- C8: a PPTX table shape with N ≥ 1 rows yields a table chunk whose headers
are the first row's cell texts and whose data is the remaining N−1 rows, each
the same length as the headers (for a rectangular grid, as python-pptx
guarantees). -/
theorem ppt_table_grid_shape (cs : List Chunk) (s : Shape)
    (htf : s.has_text_frame = false) (hty : s.shape_type = 19)
    (hne : s.table ≠ [])
    (hrect : ∀ r ∈ s.table, r.length = (s.table.headD []).length) :
    pptShape cs s
      = cs ++ [Chunk.table (s.table.headD []) (s.table.drop 1) cs.length]
    ∧ (s.table.drop 1).length = s.table.length - 1
    ∧ ∀ r ∈ s.table.drop 1, r.length = (s.table.headD []).length := by
  refine ⟨?_, ?_, ?_⟩
  · unfold pptShape
    simp [htf, hty]
  · simp [List.length_drop]
  · intro r hr
    exact hrect r (List.mem_of_mem_drop hr)

/-- C8 witness: the grid-shape theorem applied to a concrete 2-by-2 table
shape. -/
theorem ppt_table_grid_shape_witness :
    pptShape [] ⟨false, ⟨[]⟩, 19, [["h1", "h2"], ["a", "b"]], 0⟩
      = [Chunk.table ["h1", "h2"] [["a", "b"]] 0] :=
  (ppt_table_grid_shape [] ⟨false, ⟨[]⟩, 19, [["h1", "h2"], ["a", "b"]], 0⟩
    rfl rfl (by decide) (by decide)).1

/-- C9 counterexample: a text frame holding the single paragraph "hello"
yields the chunk text "hello\n" — every paragraph is followed by a newline, so
the text is not "hello" as newline-separation with no trailing character
would give. -/
theorem ppt_newline_counterexample :
    PPTParser.parse_file [[⟨true, ⟨["hello"]⟩, 1, [], 0⟩]]
      = [Chunk.paragraph "hello\n" 0]
    ∧ "hello\n" ≠ "hello" := by
  constructor
  · show sequencer _ = _
    rw [show (List.foldl (fun chunks slide => List.foldl pptShape chunks slide) []
      [[(⟨true, ⟨["hello"]⟩, 1, [], 0⟩ : Shape)]])
      = [Chunk.paragraph "hello\n" 0] from by decide]
    simp [sequencer]
  · decide

/-- C9 (amended): the paragraph chunk's text is each paragraph's text followed
by a newline, concatenated — newline-terminated, not newline-separated. -/
theorem ppt_text_newline_terminated (cs : List Chunk) (s : Shape)
    (htf : s.has_text_frame = true) :
    pptShape cs s = cs ++ [Chunk.paragraph
      (String.join (s.text_frame.paragraphs.map (fun p => p ++ "\n")))
      cs.length] := by
  unfold pptShape
  simp [htf, frameText_eq_join]

/-- C9 witness: the amended theorem applied to a two-paragraph text frame. -/
theorem ppt_text_newline_terminated_witness :
    pptShape [] ⟨true, ⟨["a", "b"]⟩, 1, [], 0⟩
      = [Chunk.paragraph (String.join (["a", "b"].map (fun p => p ++ "\n"))) 0] :=
  ppt_text_newline_terminated [] ⟨true, ⟨["a", "b"]⟩, 1, [], 0⟩ rfl

/-- C10: the reserved entries are written after the per-column entries, so a
column literally named "headers" (or "dataframe") is overwritten: the result
maps "headers" to the header list — never to any column's value sequence —
and "dataframe" to the whole dataframe. -/
theorem reserved_keys_overwrite (df : DataFrame) (hh : "headers" ∈ df.columns) :
    dictGet (CSVParser.parse_file df) "headers" = some (TVal.hdrs df.columns)
    ∧ (∀ vs : List String,
        dictGet (CSVParser.parse_file df) "headers" ≠ some (TVal.col vs))
    ∧ dictGet (CSVParser.parse_file df) "dataframe" = some (TVal.df df) := by
  refine ⟨?_, fun vs => ?_, ?_⟩ <;> rw [csv_parse_get] <;> simp

/-- C10 witness: the overwrite theorem applied to a one-column grid whose only
column is literally named "headers". -/
theorem reserved_keys_overwrite_witness :
    dictGet (CSVParser.parse_file ⟨[("headers", ["v"])]⟩) "headers"
      = some (TVal.hdrs (DataFrame.columns ⟨[("headers", ["v"])]⟩)) :=
  (reserved_keys_overwrite ⟨[("headers", ["v"])]⟩ (by decide)).1

end FileParser
